import Mathlib

/-!
Shallow embedding of the Azure Kusto Go ingestion client core:
the queued ingestion orchestrator (`kusto/ingest/ingest.go`) and the
streaming ingestion orchestrator. External collaborators (resource
discovery, filesystem staging, the streaming connection, gzip) are
modelled as explicit parameters; mutable fields (the global manager
cache, the lazily created stream connection) are modelled by explicit
state passing. Reference identity of allocated objects is modelled by
allocation serial numbers threaded through the state.
-/

namespace KustoIngest

/-- UUIDs modelled as naturals; `uuid.Nil` is the zero value. -/
abbrev UUID := Nat

/-- The `uuid.Nil` sentinel. -/
def uuidNil : UUID := 0

/-- The `.String()` rendering of a UUID, modelled injectively. -/
def uuidToString (u : UUID) : String := toString u

/-- Data formats; `DFUnknown` is the Go zero value of `DataFormat`. -/
inductive DataFormat where
  | DFUnknown
  | CSV
  | JSON
  | AVRO
deriving DecidableEq

/-- Compression types returned by `filesystem.CompressionDiscovery`. -/
inductive CompressionType where
  | CTUnknown
  | CTNone
  | CTGZIP
  | CTZIP
deriving DecidableEq

/-- Report levels; `None` is the Go zero value of `properties.ReportLevel`. -/
inductive ReportLevel where
  | None
  | FailuresOnly
  | FailuresAndSuccesses
deriving DecidableEq

/-- Report methods of `properties` (queue is the Go zero value). -/
inductive ReportMethod where
  | ReportStatusToQueue
  | ReportStatusToTable
  | ReportStatusToQueueAndTable
deriving DecidableEq

/-- Operation tags of the `errors` package used by these files. -/
inductive ErrOp where
  | OpFileIngest
  | OpIngestStream
deriving DecidableEq

/-- Error kinds of the `errors` package used by these files. -/
inductive ErrKind where
  | KClientArgs
deriving DecidableEq

/-- Errors: `errors.ES` (op, kind, message), `errors.E` (op, kind, wrapped
inner error), `fmt.Errorf` messages, and opaque collaborator errors. -/
inductive Error where
  | es (op : ErrOp) (kind : ErrKind) (msg : String)
  | e (op : ErrOp) (kind : ErrKind) (inner : Error)
  | fmtErrorf (msg : String)
  | external (tag : String)
deriving DecidableEq

/-- The `Ingestion.TableEntryRef` sub-structure of the property set. -/
structure TableEntryRef where
  tableConnectionString : String
  partitionKey : String
  rowKey : String
deriving DecidableEq

/-- Go zero value of `TableEntryRef`. -/
def TableEntryRef.zero : TableEntryRef := ⟨"", "", ""⟩

/-- The `Ingestion.Additional` sub-structure of the property set. -/
structure Additional where
  format : DataFormat
  ingestionMappingRef : String
  authContext : String
deriving DecidableEq

/-- The `properties.Ingestion` part of the property set. -/
structure IngestionProps where
  databaseName : String
  tableName : String
  retainBlobOnSuccess : Bool
  reportLevel : ReportLevel
  reportMethod : ReportMethod
  tableEntryRef : TableEntryRef
  additional : Additional
deriving DecidableEq

/-- The `properties.Streaming` part of the property set
(`ShouldCompress` has Go zero value `false`). -/
structure StreamingProps where
  shouldCompress : Bool
  clientRequestId : String
deriving DecidableEq

/-- The `properties.Source` part of the property set. -/
structure SourceProps where
  id : UUID
deriving DecidableEq

/-- The full property set `properties.All`. -/
structure AllProps where
  ingestion : IngestionProps
  streaming : StreamingProps
  source : SourceProps
deriving DecidableEq

/-- Modelled from the spec: the `Result` status record
`record{IngestionSourcePath, Status, CorrelationID}` (the `Result`
type's own file is not part of the given sources). -/
structure StatusRecord where
  ingestionSourcePath : String
  status : String
deriving DecidableEq

/-- Modelled from the spec: `Result = {properties snapshot, record}`
plus the queued marker set by `putQueued` (status-polling hints). -/
structure Result where
  props : AllProps
  record : StatusRecord
  queued : Bool
deriving DecidableEq

/-- Go zero value of `AllProps`, used as the placeholder snapshot of a
fresh result. -/
def AllProps.zero : AllProps :=
  { ingestion :=
      { databaseName := "", tableName := "", retainBlobOnSuccess := false,
        reportLevel := .None, reportMethod := .ReportStatusToQueue,
        tableEntryRef := TableEntryRef.zero,
        additional := { format := .DFUnknown, ingestionMappingRef := "", authContext := "" } },
    streaming := { shouldCompress := false, clientRequestId := "" },
    source := { id := uuidNil } }

/-- Modelled from the spec: `newResult` creates a fresh empty result. -/
def newResult : Result :=
  { props := AllProps.zero, record := { ingestionSourcePath := "", status := "" }, queued := false }

/-- Modelled from the spec: `putProps` stores the property-set snapshot
in the result. -/
def Result.putProps (r : Result) (props : AllProps) : Result :=
  { r with props := props }

/-- Modelled from the spec: `putQueued` marks the result queued with
status-polling hints taken from the manager. -/
def Result.putQueued (r : Result) : Result :=
  { r with queued := true }

/-- Immutable snapshot returned by `Manager.Resources()`; for these
claims only the status-table endpoints matter. -/
structure ResourceSet where
  tables : List String
deriving DecidableEq

/-- The resource manager collaborator as seen by `prepForIngestion`:
`AuthContext` and `Resources`, each possibly failing. -/
structure Manager where
  authContext : Except Error String
  resources : Except Error ResourceSet

/-- The `filesystem.Ingestion` staging collaborator plus
`filesystem.IsLocalPath`, as used by the queued orchestrator. -/
structure Filesystem where
  isLocalPath : String → Except Error Bool
  localUpload : String → AllProps → Except Error Unit
  blob : String → AllProps → Except Error Unit
  reader : AllProps → Except Error String

/-- The queued ingestion orchestrator `Ingestion`. -/
structure Ingestion where
  db : String
  table : String
  mgr : Manager
  fs : Filesystem

/-- A functional option's `Run(&props, isFile, isBlob, isReader, isQueued,
isStreaming)`: validates the mode flags and returns the mutated property
set or an error. -/
def FileOption :=
  AllProps → Bool → Bool → Bool → Bool → Bool → Except Error AllProps

/-- Applies options in call order, stopping at the first error, as the
`for _, o := range options` loops do. -/
def runOptions (options : List FileOption) (props : AllProps)
    (isFile isBlob isReader isQueued isStreaming : Bool) : Except Error AllProps :=
  match options with
  | [] => .ok props
  | o :: rest =>
    match o props isFile isBlob isReader isQueued isStreaming with
    | .error err => .error err
    | .ok p => runOptions rest p isFile isBlob isReader isQueued isStreaming

/-- Applies options in call order, also counting how many `Run` calls
were made (used to observe that nothing ran on early-rejected paths). -/
def runOptionsCount (options : List FileOption) (props : AllProps)
    (isFile isBlob isReader isQueued isStreaming : Bool) : Except Error AllProps × Nat :=
  match options with
  | [] => (.ok props, 0)
  | o :: rest =>
    match o props isFile isBlob isReader isQueued isStreaming with
    | .error err => (.error err, 1)
    | .ok p =>
      let (res, n) := runOptionsCount rest p isFile isBlob isReader isQueued isStreaming
      (res, n + 1)

/-- The message of the missing-status-table configuration error in
`prepForIngestion`. -/
def statusTableErr : Error :=
  .fmtErrorf "User requested reporting status to table, yet status table resource URI is not found"

/-- The missing-format argument error of queued `FromReader`. -/
def missingFormatErr : Error :=
  .fmtErrorf "must provide option FileFormat() when using FromReader()"

/-- The `newProp` seed of the queued orchestrator: database, table,
`RetainBlobOnSuccess: true`, and the auth context; everything else at
its zero value. -/
def Ingestion.newProp (i : Ingestion) (auth : String) : AllProps :=
  { ingestion :=
      { databaseName := i.db, tableName := i.table, retainBlobOnSuccess := true,
        reportLevel := .None, reportMethod := .ReportStatusToQueue,
        tableEntryRef := TableEntryRef.zero,
        additional := { format := .DFUnknown, ingestionMappingRef := "", authContext := auth } },
    streaming := { shouldCompress := false, clientRequestId := "" },
    source := { id := uuidNil } }

/-- The reporting block of `prepForIngestion` (lines 101-122 of
ingest.go): when `ReportLevel != None`, assign a correlation id if
unset (`uuidNew` stands for the fresh `uuid.New()` value), and for the
status-table report methods fetch resources, fail when no status table
is cached, and otherwise populate `TableEntryRef`. -/
def reportSetup (mgr : Manager) (uuidNew : UUID) (props : AllProps) : Except Error AllProps :=
  if props.ingestion.reportLevel ≠ ReportLevel.None then
    let props :=
      if props.source.id = uuidNil then { props with source := { id := uuidNew } } else props
    match props.ingestion.reportMethod with
    | .ReportStatusToTable | .ReportStatusToQueueAndTable =>
      match mgr.resources with
      | .error err => .error err
      | .ok managerResources =>
        match managerResources.tables with
        | [] => .error statusTableErr
        | t :: _ =>
          .ok { props with ingestion :=
            { props.ingestion with tableEntryRef :=
              { tableConnectionString := t,
                partitionKey := uuidToString props.source.id,
                rowKey := uuidToString uuidNil } } }
    | .ReportStatusToQueue => .ok props
  else .ok props

/-- `prepForIngestion`: build a fresh result, seed the property set with
the auth context, apply the options under the queued mode flags, run the
reporting setup, and snapshot the final properties into the result. -/
def Ingestion.prepForIngestion (i : Ingestion) (uuidNew : UUID) (options : List FileOption)
    (isFile isBlob isReader : Bool) : Except Error (Result × AllProps) :=
  let result := newResult
  match i.mgr.authContext with
  | .error err => .error err
  | .ok auth =>
    match runOptions options (i.newProp auth) isFile isBlob isReader true false with
    | .error err => .error err
    | .ok props =>
      match reportSetup i.mgr uuidNew props with
      | .error err => .error err
      | .ok props => .ok (result.putProps props, props)

/-- Outcome of a queued entry point: the Go pair `(*Result, error)`
with both components explicit. -/
structure QOutcome where
  res : Option Result
  err : Option Error
deriving DecidableEq

/-- Outcome of queued `FromReader`: the Go pair plus the number of
staging (`fs.Reader`) calls made. -/
structure ROutcome where
  res : Option Result
  err : Option Error
  stagingCalls : Nat
deriving DecidableEq

/-- Queued `FromFile`: classify the path, prepare, record the source
path, dispatch to local or blob staging, and mark the result queued. -/
def Ingestion.FromFile (i : Ingestion) (uuidNew : UUID) (fPath : String)
    (options : List FileOption) : QOutcome :=
  match i.fs.isLocalPath fPath with
  | .error err => ⟨none, some err⟩
  | .ok isLocal =>
    match i.prepForIngestion uuidNew options isLocal (!isLocal) false with
    | .error err => ⟨none, some err⟩
    | .ok (result, props) =>
      let result := { result with record := { result.record with ingestionSourcePath := fPath } }
      let uploadRes := if isLocal then i.fs.localUpload fPath props else i.fs.blob fPath props
      match uploadRes with
      | .error err => ⟨none, some err⟩
      | .ok _ => ⟨some result.putQueued, none⟩

/-- Queued `FromReader`: prepare, require an explicit format, stage the
reader content to a durable object, record the staged path, and mark
the result queued. -/
def Ingestion.FromReader (i : Ingestion) (uuidNew : UUID)
    (options : List FileOption) : ROutcome :=
  match i.prepForIngestion uuidNew options false false true with
  | .error err => ⟨none, some err, 0⟩
  | .ok (result, props) =>
    if props.ingestion.additional.format = DataFormat.DFUnknown then
      ⟨none, some missingFormatErr, 0⟩
    else
      match i.fs.reader props with
      | .error err => ⟨none, some err, 1⟩
      | .ok path =>
        ⟨some ({ result with
          record := { result.record with ingestionSourcePath := path } }.putQueued), none, 1⟩

/-- Payloads written over the streaming connection: raw bytes, or a
payload wrapped by the streaming gzip encoder (`zw.Reset(closer)`). -/
inductive Payload where
  | raw (data : List Nat)
  | gzipped (inner : Payload)
deriving DecidableEq

/-- Byte size of a payload as seen by the backend (only the raw size is
relevant to the claims; a gzip wrapper's size is left abstract as the
inner size). -/
def Payload.size : Payload → Nat
  | .raw data => data.length
  | .gzipped inner => inner.size

/-- The streaming connection collaborator `conn.Conn`: identified by an
allocation serial, with its `Write(ctx, db, table, payload, format,
mappingRef, clientRequestId)` behaviour as a function returning the
error, if any. -/
structure Conn where
  serial : Nat
  write : String → String → Payload → DataFormat → String → String → Option Error

/-- Outcome of `streamImpl`: the Go pair `(*Result, error)` plus the
payload actually handed to the connection write (`some` exactly when a
write was attempted — `streamImpl` always attempts one). -/
structure SOutcome where
  res : Option Result
  err : Option Error
  written : Option Payload

/-- `streamImpl`: gzip-wrap the payload when `Streaming.ShouldCompress`
is set, write over the connection, wrap a write failure in
`errors.E(OpIngestStream, KClientArgs, err)`, and on success synthesize
a result whose status is immediately `"Success"`. -/
def streamImpl (db table : String) (c : Conn) (payload : Payload)
    (props : AllProps) : SOutcome :=
  let payload :=
    if props.streaming.shouldCompress then Payload.gzipped payload else payload
  match c.write db table payload props.ingestion.additional.format
      props.ingestion.additional.ingestionMappingRef props.streaming.clientRequestId with
  | some err => ⟨none, some (.e .OpIngestStream .KClientArgs err), some payload⟩
  | none =>
    let result := newResult.putProps props
    let result := { result with record := { result.record with status := "Success" } }
    ⟨some result, none, some payload⟩

/-- The streaming ingestion orchestrator `StreamingIngestion`; its
connection is a plain field filled in by the constructor. -/
structure StreamingIngestion where
  db : String
  table : String
  streamConn : Conn

/-- `NewStreaming`: constructs the connection via `conn.New` before any
ingestion call and stores it in the orchestrator. -/
def NewStreaming (connNew : Except Error Conn) (db table : String) :
    Except Error StreamingIngestion :=
  match connNew with
  | .error err => .error err
  | .ok streamConn => .ok { db := db, table := table, streamConn := streamConn }

/-- `NewStreaming` with the number of `conn.New` invocations the
constructor performs made explicit (the Go constructor calls `conn.New`
unconditionally, exactly once). -/
def NewStreamingCounted (connNew : Except Error Conn) (db table : String) :
    Except Error StreamingIngestion × Nat :=
  (NewStreaming connNew db table, 1)

/-- The collaborators used by streaming `FromFile`:
`filesystem.IsLocalPath`, `filesystem.CompressionDiscovery`, and
`os.Open` (the opened file's content as a payload). -/
structure StreamEnv where
  isLocalPath : String → Except Error Bool
  compressionDiscovery : String → CompressionType
  osOpen : String → Except Error Payload

/-- Outcome of streaming `FromFile`: the Go pair plus the observable
events — how many options ran, whether the file was opened, whether a
connection write was attempted, and what payload was written. -/
structure FOutcome where
  res : Option Result
  err : Option Error
  optionsApplied : Nat
  fileOpened : Bool
  written : Option Payload

/-- The argument error streaming `FromFile` returns for non-local paths. -/
def blobPathErr : Error :=
  .es .OpFileIngest .KClientArgs "blobstore paths are not supported for streaming"

/-- The streaming orchestrator's `newProp`: only database and table,
everything else at its zero value. -/
def StreamingIngestion.newProp (i : StreamingIngestion) : AllProps :=
  { AllProps.zero with ingestion :=
    { AllProps.zero.ingestion with databaseName := i.db, tableName := i.table } }

/-- Streaming `FromFile`: reject non-local paths before anything else,
apply options under the streaming file mode flags, set
`ShouldCompress` exactly when `CompressionDiscovery` reports a known
compression scheme (neither `CTUnknown` nor `CTNone`), open the file,
and stream it. -/
def StreamingIngestion.FromFile (i : StreamingIngestion) (env : StreamEnv)
    (fPath : String) (options : List FileOption) : FOutcome :=
  match env.isLocalPath fPath with
  | .error err => ⟨none, some err, 0, false, none⟩
  | .ok isLocal =>
    if !isLocal then
      ⟨none, some blobPathErr, 0, false, none⟩
    else
      match runOptionsCount options i.newProp true false false false true with
      | (.error err, n) => ⟨none, some err, n, false, none⟩
      | (.ok props, n) =>
        let discovery := env.compressionDiscovery fPath
        let props :=
          if discovery ≠ CompressionType.CTUnknown ∧ discovery ≠ CompressionType.CTNone then
            { props with streaming := { props.streaming with shouldCompress := true } }
          else props
        match env.osOpen fPath with
        | .error err => ⟨none, some err, n, false, none⟩
        | .ok file =>
          let s := streamImpl i.db i.table i.streamConn file props
          ⟨s.res, s.err, n, true, s.written⟩

/-- Streaming `FromReader`: apply options under the streaming reader
mode flags, unconditionally set `ShouldCompress`, and stream. -/
def StreamingIngestion.FromReader (i : StreamingIngestion) (reader : Payload)
    (options : List FileOption) : SOutcome :=
  match runOptions options i.newProp false false true false true with
  | .error err => ⟨none, some err, none⟩
  | .ok props =>
    let props := { props with streaming := { props.streaming with shouldCompress := true } }
    streamImpl i.db i.table i.streamConn reader props

/-- `Ingestion.getStreamConn`: the whole body runs under `connMu`, so
concurrent calls serialize; the sequential semantics takes the current
`streamConn` field and returns the connection handed to the caller, the
new field value, and how many `conn.New` constructions this call made.
The nil check happens under the lock; a hit constructs nothing. -/
def getStreamConn (connNew : Except Error Conn) (streamConn : Option Conn) :
    Except Error (Conn × Option Conn × Nat) :=
  match streamConn with
  | some c => .ok (c, some c, 0)
  | none =>
    match connNew with
    | .error err => .error err
    | .ok sc => .ok (sc, some sc, 1)

/-- Iterates `n` serialized `getStreamConn` calls (mutual exclusion via
`connMu` makes any concurrent execution equivalent to such a
serialization): returns the list of connections handed out, the final
field value, and the total number of constructions. -/
def getStreamConnCalls (connNew : Except Error Conn) :
    Nat → Option Conn → List Conn × Option Conn × Nat
  | 0, st => ([], st, 0)
  | n + 1, st =>
    match getStreamConn connNew st with
    | .error _ => ([], st, 0)
    | .ok (c, st', k) =>
      let (cs, stFin, kRest) := getStreamConnCalls connNew n st'
      (c :: cs, stFin, k + kRest)

/-- `Ingestion.Stream`: obtain the connection, build a property set with
only database, table, format and mapping reference set (everything
else, `ShouldCompress` included, at its zero value), and stream the
payload bytes. Returns the Go error, the new `streamConn` field, and
the payload written, if a write was attempted. -/
def Ingestion.Stream (i : Ingestion) (connNew : Except Error Conn)
    (streamConn : Option Conn) (payload : List Nat) (format : DataFormat)
    (mappingName : String) : Option Error × Option Conn × Option Payload :=
  match getStreamConn connNew streamConn with
  | .error err => (some err, streamConn, none)
  | .ok (c, st, _) =>
    let props : AllProps :=
      { AllProps.zero with ingestion :=
        { AllProps.zero.ingestion with
          databaseName := i.db, tableName := i.table,
          additional := { AllProps.zero.ingestion.additional with
            format := format, ingestionMappingRef := mappingName } } }
    let s := streamImpl i.db i.table c (Payload.raw payload) props
    (s.err, st, s.written)

/-- Modelled from the spec: the backend enforces a hard size ceiling —
the connection write rejects payloads of 4 MiB or more with a
backend-rejection error, and accepts smaller ones (`conn.Conn.Write`
itself is not among the given sources). -/
def backendConn (serial : Nat) (rejection : Error) : Conn :=
  { serial := serial,
    write := fun _ _ payload _ _ _ =>
      if 4 * 1024 * 1024 ≤ payload.size then some rejection else none }

/-- A backend client, identified for the model by a number. -/
structure Client where
  id : Nat
deriving DecidableEq

/-- A `resources.Manager` instance: the client it was constructed from
and an allocation serial distinguishing separately constructed
instances (reference identity). -/
structure RManager where
  client : Client
  serial : Nat
deriving DecidableEq

/-- The package-level state of the accessor: the `manager atomic.Value`
cell and the running count of `resources.New` constructions (the
allocation counter providing serials). -/
structure MgrState where
  stored : Option RManager
  constructions : Nat
deriving DecidableEq

/-- `getManager`, sequential semantics: load the cell; on a hit return
the stored manager unchanged; on a miss the mutex section constructs a
manager from the client and stores it — the code performs no re-check
of the cell inside the mutex section. Returns the manager handed to
the caller and the new state. -/
def getManager (client : Client) (s : MgrState) : RManager × MgrState :=
  match s.stored with
  | some m => (m, s)
  | none =>
    let mgr : RManager := { client := client, serial := s.constructions + 1 }
    (mgr, { stored := some mgr, constructions := s.constructions + 1 })

/-- The tail of `getManager` after its initial unsynchronized
`manager.Load()` returned `loaded`: a non-nil load returns immediately;
a nil load enters the mutex section, which constructs and stores
unconditionally, ignoring the current cell contents `s.stored` — this
is the code's exact miss path, which lacks a re-check, and it is what
an interleaved execution runs after both threads loaded `nil`. -/
def getManagerAfterLoad (client : Client) (loaded : Option RManager)
    (s : MgrState) : RManager × MgrState :=
  match loaded with
  | some m => (m, s)
  | none =>
    let mgr : RManager := { client := client, serial := s.constructions + 1 }
    (mgr, { stored := some mgr, constructions := s.constructions + 1 })

/-- The correlation id `prepForIngestion` ends up with when reporting is
requested: lines 102-104 keep `Source.ID` when already set and assign
the fresh `uuid.New()` value otherwise. -/
def effectiveSourceId (uuidNew : UUID) (props : AllProps) : UUID :=
  if props.source.id = uuidNil then uuidNew else props.source.id

/-- A connection whose write always succeeds, for concrete runs. -/
def acceptConn : Conn := { serial := 0, write := fun _ _ _ _ _ _ => none }

/-- A concrete streaming orchestrator over the accepting connection. -/
def sIngest : StreamingIngestion := { db := "db", table := "tbl", streamConn := acceptConn }

/-- A streaming environment whose compression discovery reports gzip. -/
def gzipEnv : StreamEnv :=
  { isLocalPath := fun _ => .ok true,
    compressionDiscovery := fun _ => .CTGZIP,
    osOpen := fun _ => .ok (.raw [1, 2, 3]) }

/-- A streaming environment whose compression discovery reports no
compression. -/
def plainEnv : StreamEnv :=
  { isLocalPath := fun _ => .ok true,
    compressionDiscovery := fun _ => .CTNone,
    osOpen := fun _ => .ok (.raw [1, 2, 3]) }

/-- A streaming environment that classifies every path as non-local. -/
def remoteEnv : StreamEnv :=
  { isLocalPath := fun _ => .ok false,
    compressionDiscovery := fun _ => .CTUnknown,
    osOpen := fun _ => .error (.external "open: no such file") }

/-- A manager exposing one status-table resource, for concrete runs. -/
def tableMgr : Manager :=
  { authContext := .ok "auth", resources := .ok { tables := ["https://status.table"] } }

/-- A staging collaborator whose uploads all succeed. -/
def noopFs : Filesystem :=
  { isLocalPath := fun _ => .ok true,
    localUpload := fun _ _ => .ok (),
    blob := fun _ _ => .ok (),
    reader := fun _ => .ok "https://container/staged-object" }

/-- A concrete queued orchestrator over `tableMgr` and `noopFs`. -/
def qIngest : Ingestion := { db := "db", table := "tbl", mgr := tableMgr, fs := noopFs }

/-- An option enabling full reporting to the status table. -/
def reportOpt : FileOption := fun p _ _ _ _ _ =>
  .ok { p with ingestion := { p.ingestion with
    reportLevel := .FailuresAndSuccesses, reportMethod := .ReportStatusToTable } }

/-- An option selecting the CSV file format. -/
def formatOpt : FileOption := fun p _ _ _ _ _ =>
  .ok { p with ingestion := { p.ingestion with
    additional := { p.ingestion.additional with format := .CSV } } }

/-- The property set `reportOpt` produces from `qIngest`'s seed. -/
def rprops : AllProps :=
  { qIngest.newProp "auth" with ingestion := { (qIngest.newProp "auth").ingestion with
    reportLevel := .FailuresAndSuccesses, reportMethod := .ReportStatusToTable } }

/-- The property set `formatOpt` produces from `qIngest`'s seed. -/
def fprops : AllProps :=
  { qIngest.newProp "auth" with ingestion := { (qIngest.newProp "auth").ingestion with
    additional := { (qIngest.newProp "auth").ingestion.additional with format := .CSV } } }

/-- The result `prepForIngestion` pairs with `fprops`. -/
def fresult : Result := newResult.putProps fprops

/-- The property set an empty option list leaves on `qIngest`'s seed. -/
def nprops : AllProps := qIngest.newProp "auth"

/-- The result `prepForIngestion` pairs with `nprops`. -/
def nresult : Result := newResult.putProps nprops

/-- A sample backend-rejection error. -/
def rejSample : Error := .external "backend rejection: request size too large"

/-- A payload of exactly 4 MiB, at the backend's size ceiling. -/
def bigPayload : List Nat := List.replicate (4 * 1024 * 1024) 0

/-- C1 counterexample: the manager cache is not per-client and does not
re-check under the mutex. First, a call with client 2 after a first call
with client 1 returns client 1's Manager — distinct backend clients do
not obtain distinct Managers. Second, two interleaved first calls with
the same client that both observe a nil load each construct and store a
Manager — two constructions, distinct instances — because the mutex
section never re-checks the cell. -/
theorem getManager_not_per_client_and_no_recheck :
    ((getManager ⟨2⟩ (getManager ⟨1⟩ ⟨none, 0⟩).2).1 = (getManager ⟨1⟩ ⟨none, 0⟩).1 ∧
      (getManager ⟨2⟩ (getManager ⟨1⟩ ⟨none, 0⟩).2).1.client = ⟨1⟩) ∧
    ((getManagerAfterLoad ⟨1⟩ none (getManagerAfterLoad ⟨1⟩ none ⟨none, 0⟩).2).1 ≠
        (getManagerAfterLoad ⟨1⟩ none ⟨none, 0⟩).1 ∧
      (getManagerAfterLoad ⟨1⟩ none (getManagerAfterLoad ⟨1⟩ none ⟨none, 0⟩).2).2.constructions = 2) := by
  decide

/-- C1 (amended): getManager keeps a single process-wide Manager: a call
finding a stored Manager returns it unchanged regardless of the client
passed; a sequential miss constructs and stores exactly one Manager
built from the calling client; and the mutex-guarded miss path behaves
identically whatever the cell currently holds, since it performs no
re-check before constructing. -/
theorem getManager_amended_single_cache (c : Client) (s : MgrState) :
    (∀ m, s.stored = some m → getManager c s = (m, s)) ∧
    (s.stored = none →
      (getManager c s).2.constructions = s.constructions + 1 ∧
      (getManager c s).2.stored = some (getManager c s).1 ∧
      (getManager c s).1.client = c) ∧
    (∀ st', getManagerAfterLoad c none { s with stored := st' } =
      getManagerAfterLoad c none s) := by
  refine ⟨fun m hm => ?_, fun hn => ?_, fun st' => rfl⟩
  · simp [getManager, hm]
  · simp [getManager, hn]

/-- C1 witness: the amended theorem applied at a concrete client and an
empty cache. -/
theorem getManager_amended_single_cache_witness :
    (MgrState.stored ⟨none, 0⟩ = none) ∧
    ((getManager ⟨5⟩ ⟨none, 0⟩).2.constructions = MgrState.constructions ⟨none, 0⟩ + 1 ∧
      (getManager ⟨5⟩ ⟨none, 0⟩).2.stored = some (getManager ⟨5⟩ ⟨none, 0⟩).1 ∧
      (getManager ⟨5⟩ ⟨none, 0⟩).1.client = ⟨5⟩) :=
  ⟨rfl, (getManager_amended_single_cache ⟨5⟩ ⟨none, 0⟩).2.1 rfl⟩

/-- C2: evaluation of the code at the failing inputs. Streaming
`FromFile` on a file whose compression discovery reports gzip sets
`ShouldCompress` and writes a second-pass gzip wrapping of the already
compressed file, while on a file with no detected compression it leaves
`ShouldCompress` unset and writes the bytes uncompressed — the exact
inverse of the specified decision. -/
theorem streaming_fromfile_compression_inverted :
    (sIngest.FromFile gzipEnv "data.csv.gz" []).written =
      some (.gzipped (.raw [1, 2, 3])) ∧
    (sIngest.FromFile plainEnv "data.csv" []).written = some (.raw [1, 2, 3]) := by
  constructor <;> rfl

/-- C5 counterexample: the streaming orchestrator's connection is not
lazily created — `NewStreaming` invokes `conn.New` exactly once during
construction, before any ingestion call is made, and stores the result. -/
theorem newstreaming_constructs_eagerly :
    (NewStreamingCounted (.ok acceptConn) "db" "tbl").2 = 1 ∧
    (NewStreamingCounted (.ok acceptConn) "db" "tbl").1 = .ok sIngest := by
  constructor <;> rfl

/-- Serialized `getStreamConn` calls that start from an initialized cell
construct nothing and keep handing out the same connection. -/
theorem getStreamConnCalls_hit (sc : Conn) (m : Nat) :
    getStreamConnCalls (.ok sc) m (some sc) = (List.replicate m sc, some sc, 0) := by
  induction m with
  | zero => rfl
  | succ k ih => simp [getStreamConnCalls, getStreamConn, ih, List.replicate_succ]

/-- C5 (amended): the queued orchestrator's `getStreamConn` creates the
connection lazily under the mutex with a single check held under the
lock (no unsynchronized fast path): a call finding a connection returns
that identical instance without constructing; a miss with a successful
`conn.New` constructs exactly one and stores it; and any number of
serialized calls from an empty cell construct exactly once, every call
receiving the identical instance. The streaming orchestrator instead
constructs its connection eagerly in `NewStreaming`. -/
theorem getStreamConn_amended_lazy_once (connNew : Except Error Conn) (c sc : Conn) (n : Nat) :
    getStreamConn connNew (some c) = .ok (c, some c, 0) ∧
    (connNew = .ok sc → getStreamConn connNew none = .ok (sc, some sc, 1)) ∧
    (1 ≤ n → getStreamConnCalls (.ok sc) n none = (List.replicate n sc, some sc, 1)) := by
  refine ⟨rfl, fun h => by simp [getStreamConn, h], fun hn => ?_⟩
  cases n with
  | zero => omega
  | succ m =>
    simp [getStreamConnCalls, getStreamConn, getStreamConnCalls_hit, List.replicate_succ]

/-- C5 witness: the amended theorem applied at the accepting connection
with three serialized calls. -/
theorem getStreamConn_amended_lazy_once_witness :
    ((Except.ok acceptConn : Except Error Conn) = .ok acceptConn ∧ 1 ≤ 3) ∧
    (getStreamConn (.ok acceptConn) (some acceptConn) = .ok (acceptConn, some acceptConn, 0) ∧
      getStreamConn (.ok acceptConn) none = .ok (acceptConn, some acceptConn, 1) ∧
      getStreamConnCalls (.ok acceptConn) 3 none = (List.replicate 3 acceptConn, some acceptConn, 1)) :=
  ⟨⟨rfl, by omega⟩,
    ⟨(getStreamConn_amended_lazy_once (.ok acceptConn) acceptConn acceptConn 3).1,
      (getStreamConn_amended_lazy_once (.ok acceptConn) acceptConn acceptConn 3).2.1 rfl,
      (getStreamConn_amended_lazy_once (.ok acceptConn) acceptConn acceptConn 3).2.2 (by omega)⟩⟩

/-- C7: streaming `FromFile` on a path classified non-local fails with
the blobstore argument error with zero options applied, the file never
opened, and no connection write attempted. -/
theorem streaming_fromfile_rejects_remote (i : StreamingIngestion) (env : StreamEnv)
    (fPath : String) (options : List FileOption)
    (h : env.isLocalPath fPath = .ok false) :
    i.FromFile env fPath options = ⟨none, some blobPathErr, 0, false, none⟩ := by
  simp [StreamingIngestion.FromFile, h]

/-- C7 witness: the rejection theorem applied to a concrete remote path. -/
theorem streaming_fromfile_rejects_remote_witness :
    remoteEnv.isLocalPath "https://acct.blob/container/x.csv" = .ok false ∧
    sIngest.FromFile remoteEnv "https://acct.blob/container/x.csv" [] =
      ⟨none, some blobPathErr, 0, false, none⟩ :=
  ⟨rfl, streaming_fromfile_rejects_remote sIngest remoteEnv "https://acct.blob/container/x.csv" [] rfl⟩

/-- C3: whenever reporting is requested (`ReportLevel != None`),
`prepForIngestion` ends up with the non-nil correlation id
`effectiveSourceId` — the fresh `uuid.New()` value when `Source.ID` was
unset, the caller's id otherwise — and every successful preparation
carries that id; when additionally the report method targets a status
table, preparation fails with the configuration error exactly when the
manager exposes zero status-table resources, and otherwise succeeds
with `PartitionKey` equal to the correlation id and `RowKey` equal to
the nil-UUID sentinel. -/
theorem prep_report_correlation_and_table (i : Ingestion) (uuidNew : UUID)
    (options : List FileOption) (isFile isBlob isReader : Bool)
    (auth : String) (props1 : AllProps)
    (hn : uuidNew ≠ uuidNil)
    (ha : i.mgr.authContext = .ok auth)
    (ho : runOptions options (i.newProp auth) isFile isBlob isReader true false = .ok props1)
    (hr : props1.ingestion.reportLevel ≠ ReportLevel.None) :
    effectiveSourceId uuidNew props1 ≠ uuidNil ∧
    (∀ result props2,
      i.prepForIngestion uuidNew options isFile isBlob isReader = .ok (result, props2) →
      props2.source.id = effectiveSourceId uuidNew props1) ∧
    ((props1.ingestion.reportMethod = .ReportStatusToTable ∨
      props1.ingestion.reportMethod = .ReportStatusToQueueAndTable) →
      ∀ rs, i.mgr.resources = .ok rs →
        (rs.tables = [] →
          i.prepForIngestion uuidNew options isFile isBlob isReader = .error statusTableErr) ∧
        (∀ t ts, rs.tables = t :: ts →
          ∃ result props2,
            i.prepForIngestion uuidNew options isFile isBlob isReader = .ok (result, props2) ∧
            props2.source.id = effectiveSourceId uuidNew props1 ∧
            props2.ingestion.tableEntryRef.partitionKey =
              uuidToString (effectiveSourceId uuidNew props1) ∧
            props2.ingestion.tableEntryRef.rowKey = uuidToString uuidNil)) := by
  have hprep : i.prepForIngestion uuidNew options isFile isBlob isReader =
      (match reportSetup i.mgr uuidNew props1 with
       | .error err => .error err
       | .ok p => .ok (newResult.putProps p, p)) := by
    simp only [Ingestion.prepForIngestion, ha, ho]
  refine ⟨?_, ?_, ?_⟩
  · unfold effectiveSourceId
    split
    · exact hn
    · next h => exact h
  · intro result props2 hok
    rw [hprep] at hok
    by_cases hid : props1.source.id = uuidNil <;>
    cases hm : props1.ingestion.reportMethod <;>
    simp only [reportSetup, hr, hid, hm, ne_eq, not_false_eq_true, ite_true, ite_false] at hok <;>
    first
    | (simp only [Except.ok.injEq, Prod.mk.injEq] at hok
       obtain ⟨h1, h2⟩ := hok
       subst h2
       simp [effectiveSourceId, hid])
    | (cases hres : i.mgr.resources with
       | error e =>
         simp only [hres] at hok
         exact Except.noConfusion hok
       | ok rs =>
         cases htab : rs.tables with
         | nil =>
           simp only [hres, htab] at hok
           exact Except.noConfusion hok
         | cons t ts =>
           simp only [hres, htab, Except.ok.injEq, Prod.mk.injEq] at hok
           obtain ⟨h1, h2⟩ := hok
           subst h2
           simp [effectiveSourceId, hid])
  · intro hm rs hres
    constructor
    · intro htab
      rw [hprep]
      rcases hm with hm | hm <;>
      by_cases hid : props1.source.id = uuidNil <;>
      simp [reportSetup, hr, hid, hm, hres, htab]
    · intro t ts htab
      rw [hprep]
      rcases hm with hm | hm <;>
      by_cases hid : props1.source.id = uuidNil <;>
      simp only [reportSetup, hr, hid, hm, hres, htab, ne_eq, not_false_eq_true,
        ite_true, ite_false] <;>
      exact ⟨_, _, rfl, by simp [effectiveSourceId, hid], by simp [effectiveSourceId, hid], rfl⟩
/-- C3 witness: the preparation theorem applied to a concrete
orchestrator with one cached status table, a reporting option, and the
fresh id 7. -/
theorem prep_report_correlation_and_table_witness :
    ((7 : UUID) ≠ uuidNil ∧
      qIngest.mgr.authContext = .ok "auth" ∧
      runOptions [reportOpt] (qIngest.newProp "auth") false false true true false = .ok rprops ∧
      rprops.ingestion.reportLevel ≠ ReportLevel.None) ∧
    (effectiveSourceId 7 rprops ≠ uuidNil ∧
      (∀ result props2,
        qIngest.prepForIngestion 7 [reportOpt] false false true = .ok (result, props2) →
        props2.source.id = effectiveSourceId 7 rprops) ∧
      ((rprops.ingestion.reportMethod = .ReportStatusToTable ∨
        rprops.ingestion.reportMethod = .ReportStatusToQueueAndTable) →
        ∀ rs, qIngest.mgr.resources = .ok rs →
          (rs.tables = [] →
            qIngest.prepForIngestion 7 [reportOpt] false false true = .error statusTableErr) ∧
          (∀ t ts, rs.tables = t :: ts →
            ∃ result props2,
              qIngest.prepForIngestion 7 [reportOpt] false false true = .ok (result, props2) ∧
              props2.source.id = effectiveSourceId 7 rprops ∧
              props2.ingestion.tableEntryRef.partitionKey =
                uuidToString (effectiveSourceId 7 rprops) ∧
              props2.ingestion.tableEntryRef.rowKey = uuidToString uuidNil))) :=
  ⟨⟨by decide, rfl, rfl, by decide⟩,
    prep_report_correlation_and_table qIngest 7 [reportOpt] false false true "auth" rprops
      (by decide) rfl rfl (by decide)⟩

/-- C4: queued `FromReader` with a property set left at the unknown
format fails with the missing-format argument error and performs zero
staging calls (and any preparation failure also stages nothing); with a
format supplied it performs exactly one staging call, and on staging
success it returns a queued result recording the staged path. -/
theorem fromreader_requires_format (i : Ingestion) (uuidNew : UUID)
    (options : List FileOption) :
    (∀ e, i.prepForIngestion uuidNew options false false true = .error e →
      i.FromReader uuidNew options = ⟨none, some e, 0⟩) ∧
    (∀ result props,
      i.prepForIngestion uuidNew options false false true = .ok (result, props) →
      (props.ingestion.additional.format = DataFormat.DFUnknown →
        i.FromReader uuidNew options = ⟨none, some missingFormatErr, 0⟩) ∧
      (props.ingestion.additional.format ≠ DataFormat.DFUnknown →
        (i.FromReader uuidNew options).stagingCalls = 1 ∧
        (∀ path, i.fs.reader props = .ok path →
          i.FromReader uuidNew options =
            ⟨some ({ result with record :=
              { result.record with ingestionSourcePath := path } }.putQueued), none, 1⟩))) := by
  refine ⟨fun e he => ?_, fun result props hp => ?_⟩
  · simp [Ingestion.FromReader, he]
  · refine ⟨fun hf => ?_, fun hf => ⟨?_, fun path hpath => ?_⟩⟩
    · simp [Ingestion.FromReader, hp, hf]
    · simp only [Ingestion.FromReader, hp, hf, ite_false, if_neg, not_false_eq_true]
      cases hread : i.fs.reader props <;> simp [hread]
    · simp [Ingestion.FromReader, hp, hf, hpath]

/-- C4 witness: the theorem applied twice to a concrete orchestrator —
once with an empty option list (format missing, argument error, zero
staging), once with the CSV format option (one staging call, staged
path recorded). -/
theorem fromreader_requires_format_witness :
    (qIngest.prepForIngestion 3 [] false false true = .ok (nresult, nprops) ∧
      nprops.ingestion.additional.format = DataFormat.DFUnknown ∧
      qIngest.FromReader 3 [] = ⟨none, some missingFormatErr, 0⟩) ∧
    (qIngest.prepForIngestion 3 [formatOpt] false false true = .ok (fresult, fprops) ∧
      fprops.ingestion.additional.format ≠ DataFormat.DFUnknown ∧
      ((qIngest.FromReader 3 [formatOpt]).stagingCalls = 1 ∧
        (∀ path, qIngest.fs.reader fprops = .ok path →
          qIngest.FromReader 3 [formatOpt] =
            ⟨some ({ fresult with record :=
              { fresult.record with ingestionSourcePath := path } }.putQueued), none, 1⟩))) :=
  ⟨⟨rfl, rfl,
      (((fromreader_requires_format qIngest 3 []).2 nresult nprops rfl).1 rfl)⟩,
    ⟨rfl, by decide,
      (((fromreader_requires_format qIngest 3 [formatOpt]).2 fresult fprops rfl).2 (by decide))⟩⟩

/-- Against a backend connection enforcing the 4 MiB ceiling, `Stream`
on a payload at or above the ceiling returns the rejection wrapped in
`errors.E(OpIngestStream, KClientArgs, ·)`. -/
theorem stream_backend_rejection_wrapped (i : Ingestion) (connNew : Except Error Conn)
    (serial : Nat) (rejection : Error) (payload : List Nat) (format : DataFormat)
    (mapping : String) (hlen : 4 * 1024 * 1024 ≤ payload.length) :
    (i.Stream connNew (some (backendConn serial rejection)) payload format mapping).1 =
      some (.e .OpIngestStream .KClientArgs rejection) := by
  simp [Ingestion.Stream, getStreamConn, streamImpl, backendConn, Payload.size,
    AllProps.zero, hlen]

/-- C6 counterexample: at a concrete payload of exactly 4 MiB, the
backend rejection does not propagate unmodified — `Stream` returns it
wrapped in a client error tagged `OpIngestStream`/`KClientArgs`, an
error distinct from the backend's own. -/
theorem stream_wraps_backend_rejection :
    (qIngest.Stream (.ok acceptConn) (some (backendConn 0 rejSample)) bigPayload .CSV "").1 =
      some (.e .OpIngestStream .KClientArgs rejSample) ∧
    Error.e .OpIngestStream .KClientArgs rejSample ≠ rejSample := by
  constructor
  · exact stream_backend_rejection_wrapped qIngest (.ok acceptConn) 0 rejSample bigPayload
      .CSV "" (by rw [bigPayload, List.length_replicate])
  · simp [rejSample]

/-- C6 (amended): the client performs no pre-check of the 4 MiB size
ceiling — `Stream` hands every payload, whatever its size, uncompressed
to the connection write; against a backend connection enforcing the
ceiling it succeeds exactly when the payload is under 4 MiB, and at or
above the ceiling the backend rejection comes back wrapped in a client
error tagged with the streaming-ingest operation, the backend error
preserved inside. -/
theorem stream_no_precheck_backend_ceiling (i : Ingestion) (connNew : Except Error Conn)
    (serial : Nat) (rejection : Error) (payload : List Nat) (format : DataFormat)
    (mapping : String) :
    ((i.Stream connNew (some (backendConn serial rejection)) payload format mapping).2.2 =
      some (Payload.raw payload)) ∧
    ((i.Stream connNew (some (backendConn serial rejection)) payload format mapping).1 = none ↔
      payload.length < 4 * 1024 * 1024) ∧
    (4 * 1024 * 1024 ≤ payload.length →
      (i.Stream connNew (some (backendConn serial rejection)) payload format mapping).1 =
        some (.e .OpIngestStream .KClientArgs rejection)) := by
  by_cases hlen : 4 * 1024 * 1024 ≤ payload.length <;>
    simp [Ingestion.Stream, getStreamConn, streamImpl, backendConn, Payload.size,
      AllProps.zero, hlen] <;>
    omega

/-- C6 witness: the amended theorem applied at the 4 MiB payload,
discharging the at-or-above-ceiling hypothesis there. -/
theorem stream_no_precheck_backend_ceiling_witness :
    4 * 1024 * 1024 ≤ bigPayload.length ∧
    (qIngest.Stream (.ok acceptConn) (some (backendConn 0 rejSample)) bigPayload .CSV "").1 =
      some (.e .OpIngestStream .KClientArgs rejSample) :=
  ⟨by rw [bigPayload, List.length_replicate],
    (stream_no_precheck_backend_ceiling qIngest (.ok acceptConn) 0 rejSample bigPayload
      .CSV "").2.2 (by rw [bigPayload, List.length_replicate])⟩

/-- C8: whenever the connection write succeeds, `streamImpl` returns a
non-nil result whose record status is immediately `"Success"` and whose
properties snapshot equals the property set passed in. -/
theorem streamimpl_success_synthesizes_result (db table : String) (c : Conn)
    (payload : Payload) (props : AllProps)
    (hw : c.write db table
        (if props.streaming.shouldCompress then Payload.gzipped payload else payload)
        props.ingestion.additional.format props.ingestion.additional.ingestionMappingRef
        props.streaming.clientRequestId = none) :
    ∃ r, (streamImpl db table c payload props).res = some r ∧
      r.record.status = "Success" ∧ r.props = props := by
  simp only [streamImpl, hw]
  exact ⟨_, rfl, rfl, rfl⟩

/-- C8 witness: the theorem applied to the accepting connection at a
concrete payload and the zero property set. -/
theorem streamimpl_success_synthesizes_result_witness :
    acceptConn.write "db" "tbl"
      (if AllProps.zero.streaming.shouldCompress then Payload.gzipped (Payload.raw [1])
        else Payload.raw [1])
      AllProps.zero.ingestion.additional.format
      AllProps.zero.ingestion.additional.ingestionMappingRef
      AllProps.zero.streaming.clientRequestId = none ∧
    (∃ r, (streamImpl "db" "tbl" acceptConn (Payload.raw [1]) AllProps.zero).res = some r ∧
      r.record.status = "Success" ∧ r.props = AllProps.zero) :=
  ⟨rfl, streamimpl_success_synthesizes_result "db" "tbl" acceptConn (Payload.raw [1])
    AllProps.zero rfl⟩

/-- C9: the property set `Stream` builds leaves `ShouldCompress` at its
false zero value, so the gzip branch of `streamImpl` is never taken on
the `Stream` path — whenever the connection is obtained, the payload
handed to the connection write is exactly the raw input bytes. -/
theorem stream_writes_uncompressed (i : Ingestion) (connNew : Except Error Conn)
    (st : Option Conn) (payload : List Nat) (format : DataFormat) (mapping : String)
    (c : Conn) (st' : Option Conn) (k : Nat)
    (h : getStreamConn connNew st = .ok (c, st', k)) :
    (i.Stream connNew st payload format mapping).2.2 = some (Payload.raw payload) := by
  simp only [Ingestion.Stream, h, streamImpl]
  split <;> rfl

/-- C9 witness: the theorem applied at a concrete payload over the
accepting connection. -/
theorem stream_writes_uncompressed_witness :
    getStreamConn (.ok acceptConn) (some acceptConn) = .ok (acceptConn, some acceptConn, 0) ∧
    (qIngest.Stream (.ok acceptConn) (some acceptConn) [9, 9] .CSV "map").2.2 =
      some (Payload.raw [9, 9]) :=
  ⟨rfl, stream_writes_uncompressed qIngest (.ok acceptConn) (some acceptConn) [9, 9] .CSV "map"
    acceptConn (some acceptConn) 0 rfl⟩

/-- `streamImpl` returns exactly one of a result or an error, whatever
the connection write does. -/
theorem streamImpl_xor (db table : String) (c : Conn) (payload : Payload)
    (props : AllProps) :
    ((streamImpl db table c payload props).res = none ∧
      (streamImpl db table c payload props).err.isSome) ∨
    ((streamImpl db table c payload props).res.isSome ∧
      (streamImpl db table c payload props).err = none) := by
  rcases hw : c.write db table
      (if props.streaming.shouldCompress then Payload.gzipped payload else payload)
      props.ingestion.additional.format props.ingestion.additional.ingestionMappingRef
      props.streaming.clientRequestId with _ | e <;>
    simp [streamImpl, hw]

/-- C10: every public entry point — queued `FromFile` and `FromReader`,
streaming `FromFile` and `FromReader`, and `streamImpl` — returns
exactly one of a non-nil result or a non-nil error: every failure path
returns a nil result with an error, and a result is returned only with
a nil error. -/
theorem entrypoints_result_xor_error :
    (∀ (i : Ingestion) (u : UUID) (fPath : String) (options : List FileOption),
      ((i.FromFile u fPath options).res = none ∧ (i.FromFile u fPath options).err.isSome) ∨
      ((i.FromFile u fPath options).res.isSome ∧ (i.FromFile u fPath options).err = none)) ∧
    (∀ (i : Ingestion) (u : UUID) (options : List FileOption),
      ((i.FromReader u options).res = none ∧ (i.FromReader u options).err.isSome) ∨
      ((i.FromReader u options).res.isSome ∧ (i.FromReader u options).err = none)) ∧
    (∀ (i : StreamingIngestion) (env : StreamEnv) (fPath : String) (options : List FileOption),
      ((i.FromFile env fPath options).res = none ∧ (i.FromFile env fPath options).err.isSome) ∨
      ((i.FromFile env fPath options).res.isSome ∧ (i.FromFile env fPath options).err = none)) ∧
    (∀ (i : StreamingIngestion) (reader : Payload) (options : List FileOption),
      ((i.FromReader reader options).res = none ∧ (i.FromReader reader options).err.isSome) ∨
      ((i.FromReader reader options).res.isSome ∧ (i.FromReader reader options).err = none)) ∧
    (∀ (db table : String) (c : Conn) (payload : Payload) (props : AllProps),
      ((streamImpl db table c payload props).res = none ∧
        (streamImpl db table c payload props).err.isSome) ∨
      ((streamImpl db table c payload props).res.isSome ∧
        (streamImpl db table c payload props).err = none)) := by
  refine ⟨fun i u fPath options => ?_, fun i u options => ?_,
    fun i env fPath options => ?_, fun i reader options => ?_,
    fun db table c payload props => ?_⟩
  · rcases hl : i.fs.isLocalPath fPath with e | isLocal
    · simp [Ingestion.FromFile, hl]
    · cases isLocal
      case false =>
        rcases hp : i.prepForIngestion u options false true false with e | rp
        · simp [Ingestion.FromFile, hl, hp]
        · obtain ⟨result, props⟩ := rp
          rcases hb : i.fs.blob fPath props with e | u' <;>
            simp [Ingestion.FromFile, hl, hp, hb]
      case true =>
        rcases hp : i.prepForIngestion u options true false false with e | rp
        · simp [Ingestion.FromFile, hl, hp]
        · obtain ⟨result, props⟩ := rp
          rcases hu : i.fs.localUpload fPath props with e | u' <;>
            simp [Ingestion.FromFile, hl, hp, hu]
  · unfold Ingestion.FromReader
    repeat' split
    all_goals simp
  · rcases hl : env.isLocalPath fPath with e | isLocal
    · simp [StreamingIngestion.FromFile, hl]
    · cases isLocal
      case false => simp [StreamingIngestion.FromFile, hl]
      case true =>
        rcases ho : runOptionsCount options i.newProp true false false false true with ⟨r, n⟩
        rcases r with e | props
        · simp [StreamingIngestion.FromFile, hl, ho]
        · rcases hf : env.osOpen fPath with e | file
          · simp [StreamingIngestion.FromFile, hl, ho, hf]
          · have h := streamImpl_xor i.db i.table i.streamConn file
              (if env.compressionDiscovery fPath ≠ CompressionType.CTUnknown ∧
                  env.compressionDiscovery fPath ≠ CompressionType.CTNone then
                { props with streaming := { props.streaming with shouldCompress := true } }
              else props)
            simp only [StreamingIngestion.FromFile, hl, ho, hf]
            exact h
  · rcases ho : runOptions options i.newProp false false true false true with e | props
    · simp [StreamingIngestion.FromReader, ho]
    · have h2 := streamImpl_xor i.db i.table i.streamConn reader
        { props with streaming := { props.streaming with shouldCompress := true } }
      simp only [StreamingIngestion.FromReader, ho]
      exact h2
  · exact streamImpl_xor db table c payload props

end KustoIngest

